import Mathlib

/-!
Shallow embedding of the rust-etcd multi-endpoint failover dispatch engine
and its request dispatch adapter.

Embedded source locations:
* `src/first_ok.rs` — the generic `FirstOk` future and `first_ok` constructor
  (the failover engine), including its `poll` state machine.
* `src/kv.rs` — the key-value dispatch adapter (`raw_get` / `raw_set` /
  `raw_delete` response classification, URL construction, the
  compare-and-swap / compare-and-delete condition guard, and the `watch`
  timeout wrapper).
* `src/client.rs` / `src/member.rs` — client construction (`with_options`,
  `Member::new`).
* `src/error.rs` — the error taxonomy (`Error`, `ApiError`, `WatchError`).
* `src/options.rs` — `ComparisonConditions` and the option structures.

External collaborators (hyper HTTP transport, serde JSON, the `url` crate's
parser, tokio timers) are modelled as oracle functions passed in as
parameters: the code under test only branches on their `Result`s, never on
their internals.

Rust futures are modelled by the type `Fut`: a computation that reports
`NotReady` for `pending` polls and then yields a fixed `result`.  This is
exactly the class of per-endpoint computations that can be driven to
completion, which is what the specification's properties quantify over.
-/

namespace RustEtcd

/-- A completed-in-finite-time asynchronous computation standing in for a
Rust `Future` (futures 0.1): it reports `NotReady` for `pending` polls and
then yields `result`. -/
structure Fut (T Er : Type) where
  pending : Nat
  result : Except Er T

/-- Outcome of polling one future: `Ok(Async::NotReady)`,
`Ok(Async::Ready(item))` or `Err(error)` in the futures 0.1 API. -/
inductive PollRes (T Er : Type) where
  | notReady : PollRes T Er
  | ready : T → PollRes T Er
  | error : Er → PollRes T Er

/-- Polling a future: while `pending > 0` it is not ready (and progresses);
at `pending = 0` it yields its result.  The second component is the
future's state after the poll (Rust `poll` takes `&mut self`). -/
def Fut.poll {T Er : Type} : Fut T Er → PollRes T Er × Fut T Er
  | ⟨Nat.succ p, r⟩ => (PollRes.notReady, ⟨p, r⟩)
  | ⟨0, Except.ok t⟩ => (PollRes.ready t, ⟨0, Except.ok t⟩)
  | ⟨0, Except.error e⟩ => (PollRes.error e, ⟨0, Except.error e⟩)

/-- State of the failover engine, from `FirstOk` in `src/first_ok.rs`:
the operation closure, the at-most-one in-flight per-endpoint future, the
remaining endpoints (the `IntoIter` cursor) and the accumulated errors. -/
structure FirstOk (E T Er : Type) where
  callback : E → Fut T Er
  current_future : Option (Fut T Er)
  endpoints : List E
  errors : List Er

/-- `first_ok` from `src/first_ok.rs`: initial engine state (no future in
flight, all endpoints remaining, no errors; `Vec::with_capacity` only
pre-sizes the error vector, its contents start empty). -/
def first_ok {E T Er : Type} (endpoints : List E) (callback : E → Fut T Er) :
    FirstOk E T Er :=
  ⟨callback, none, endpoints, []⟩

/-- Result of one call to `FirstOk::poll`: suspend with an updated state,
resolve with the first success, or resolve with the accumulated error
list once the endpoints are exhausted. -/
inductive PollOut (E T Er : Type) where
  | notReady : FirstOk E T Er → PollOut E T Er
  | ready : T → PollOut E T Er
  | exhausted : List Er → PollOut E T Er

/-- Body of `FirstOk::poll` (`src/first_ok.rs` lines 46-75), unfolded over
the state fields.  Branches correspond one to one with the source: if a
future is in flight, poll it (`NotReady` suspends, `Ready` short-circuits,
`Err` pushes the error and recursively re-polls); otherwise advance the
endpoint cursor (invoking the callback and recursively re-polling) or, if
exhausted, resolve with the error list.  The second component of the result
records which endpoints were passed to the callback during this call —
purely observational instrumentation used to state invocation-count
properties. -/
def pollAux {E T Er : Type} (cb : E → Fut T Er) :
    Option (Fut T Er) → List E → List Er → PollOut E T Er × List E
  | some f, es, errs =>
    match Fut.poll f with
    | (PollRes.notReady, f2) => (PollOut.notReady ⟨cb, some f2, es, errs⟩, [])
    | (PollRes.ready t, _) => (PollOut.ready t, [])
    | (PollRes.error e, _) => pollAux cb none es (errs ++ [e])
  | none, e :: rest, errs =>
    let r := pollAux cb (some (cb e)) rest errs
    (r.1, e :: r.2)
  | none, [], errs => (PollOut.exhausted errs, [])
termination_by cur es _ => 2 * es.length + (if cur.isSome then 1 else 0)
decreasing_by
  all_goals simp [List.length_cons]
  omega

/-- `FirstOk::poll` on the engine state. -/
def FirstOk.poll {E T Er : Type} (s : FirstOk E T Er) : PollOut E T Er × List E :=
  pollAux s.callback s.current_future s.endpoints s.errors

/-- Number of (mutually nested) calls to `poll` performed by one outermost
call to `FirstOk::poll`, counting the outer call itself: the source's
`self.poll()` recursion in the `Err` and `Some(endpoint)` branches is not
guaranteed to be tail-call-optimised by Rust, so this is the call-stack
depth contributed by a single `poll`. -/
def pollCallsAux {E T Er : Type} (cb : E → Fut T Er) :
    Option (Fut T Er) → List E → List Er → Nat
  | some f, es, errs =>
    match Fut.poll f with
    | (PollRes.notReady, _) => 1
    | (PollRes.ready _, _) => 1
    | (PollRes.error e, _) => 1 + pollCallsAux cb none es (errs ++ [e])
  | none, e :: rest, errs => 1 + pollCallsAux cb (some (cb e)) rest errs
  | none, [], _ => 1
termination_by cur es _ => 2 * es.length + (if cur.isSome then 1 else 0)
decreasing_by
  all_goals simp [List.length_cons]
  omega

/-- Call-stack depth of one outermost `FirstOk::poll` call. -/
def FirstOk.pollCalls {E T Er : Type} (s : FirstOk E T Er) : Nat :=
  pollCallsAux s.callback s.current_future s.endpoints s.errors

/-- Number of per-endpoint futures currently in flight: the engine stores
at most one (`current_future : Option<T>`). -/
def FirstOk.inflight {E T Er : Type} (s : FirstOk E T Er) : Nat :=
  match s.current_future with
  | some _ => 1
  | none => 0

/-- An executor driving the `FirstOk` future to completion: repeatedly call
`poll`, re-polling on `NotReady`, until it resolves.  `fuel` bounds the
number of `poll` calls the executor makes (each call needs one fuel); the
accumulator collects the endpoints passed to the callback so far.  Returns
`none` when the fuel is insufficient, otherwise the resolution together
with the full list of endpoints the callback was invoked on, in order. -/
def drive {E T Er : Type} :
    Nat → FirstOk E T Er → List E → Option (Except (List Er) T × List E)
  | 0, _, _ => none
  | Nat.succ fuel, s, acc =>
    match s.poll with
    | (PollOut.ready t, inv) => some (Except.ok t, acc ++ inv)
    | (PollOut.exhausted errs, inv) => some (Except.error errs, acc ++ inv)
    | (PollOut.notReady s2, inv) => drive fuel s2 (acc ++ inv)

/-- Total latency (pending poll count) of the futures the callback would
produce for a list of endpoints; `pendingSum cb es + 1` is enough executor
fuel to drive `first_ok es cb` to completion. -/
def pendingSum {E T Er : Type} (cb : E → Fut T Er) (es : List E) : Nat :=
  (es.map fun e => (cb e).pending).sum

/-- The pure fold over the endpoint list with `Result`-typed early exit
that the failover engine implements: try each endpoint in order, stop at
the first success, otherwise accumulate every error.  Returns the
resolution together with the endpoints consumed (in order). -/
def foldFirstOk {E T Er : Type} (cb : E → Fut T Er) :
    List E → List Er → Except (List Er) T × List E
  | [], errs => (Except.error errs, [])
  | e :: rest, errs =>
    match (cb e).result with
    | Except.ok t => (Except.ok t, [e])
    | Except.error er =>
      let r := foldFirstOk cb rest (errs ++ [er])
      (r.1, e :: r.2)

end RustEtcd

namespace RustEtcd

/-- ApiError from `src/error.rs`: the structured error payload returned by
an etcd API endpoint. -/
structure ApiError where
  cause : Option String
  error_code : Nat
  index : Nat
  message : String

/-- Stand-in for the external `hyper::Error` transport error type. -/
structure HttpError where
  message : String

/-- Stand-in for the external `url::ParseError` type. -/
structure UrlError where
  message : String

/-- Stand-in for the external `http::uri::InvalidUri` type. -/
structure InvalidUri where
  message : String

/-- Stand-in for the external `serde_json::Error` type. -/
structure SerdeError where
  message : String

/-- The Error enum from `src/error.rs` (the `tls`-feature variant is
compiled out). `StatusCode` is represented by its numeric code. -/
inductive Error where
  | api : ApiError → Error
  | http : HttpError → Error
  | invalidConditions : Error
  | invalidUri : InvalidUri → Error
  | invalidUrl : UrlError → Error
  | noEndpoints : Error
  | serialization : SerdeError → Error
  | unexpectedStatus : Nat → Error

/-- WatchError from `src/error.rs`: either one error per failed request,
or the timeout fired first. -/
inductive WatchError where
  | other : List Error → WatchError
  | timeout : WatchError

/-- A transport-level response as consumed by the dispatch adapter: status
code, headers, and the fully concatenated body. -/
structure HttpResponse where
  status : Nat
  headers : List (String × String)
  body : String

/-- Modelled from the spec: the `ClusterInfo` of the newer client module is
not under `src/` (only its use in `src/kv.rs` is); the spec describes it
only as cluster information extracted from HTTP response headers, so it is
kept abstract as the raw header material. -/
structure ClusterInfo where
  info : List (String × String)

/-- Response wrapper as constructed in `src/kv.rs` (`Response { data,
cluster_info }`); its definition lives in the newer client module, which
is not under `src/`. -/
structure Response (T : Type) where
  data : T
  cluster_info : ClusterInfo

/-- Action from `src/kv.rs`. -/
inductive Action where
  | compareAndDelete : Action
  | compareAndSwap : Action
  | create : Action
  | delete : Action
  | expire : Action
  | get : Action
  | set : Action
  | update : Action

/-- Node from `src/kv.rs` (recursive through `nodes`). -/
inductive Node where
  | mk (created_index : Option Nat) (dir : Option Bool)
      (expiration : Option String) (key : Option String)
      (modified_index : Option Nat) (nodes : Option (List Node))
      (ttl : Option Int) (value : Option String) : Node

/-- KeyValueInfo from `src/kv.rs`. -/
structure KeyValueInfo where
  action : Action
  node : Node
  prev_node : Option Node

/-- Permission / Permissions / Role from `src/auth.rs`. -/
structure Permission where
  read : List String
  write : List String

structure Permissions where
  kv : Permission

structure Role where
  name : String
  permissions : Permissions

/-- ComparisonConditions from `src/options.rs`. -/
structure ComparisonConditions where
  modified_index : Option Nat
  value : Option String

/-- ComparisonConditions::is_empty (`src/options.rs` lines 10-15): both
conditions unset. -/
def ComparisonConditions.is_empty (c : ComparisonConditions) : Bool :=
  c.modified_index.isNone && c.value.isNone

/-- DeleteOptions from `src/options.rs`. -/
structure DeleteOptions where
  conditions : Option ComparisonConditions
  dir : Option Bool
  recursive : Option Bool

/-- SetOptions as used by `raw_set` in `src/kv.rs` (including `refresh`). -/
structure SetOptions where
  conditions : Option ComparisonConditions
  create_in_order : Bool
  dir : Option Bool
  prev_exist : Option Bool
  refresh : Bool
  ttl : Option Nat
  value : Option String

/-- The internal get options (`GetOptions` of `src/options.rs`, imported
as `InternalGetOptions` by `src/kv.rs`). -/
structure InternalGetOptions where
  strong_consistency : Bool
  recursive : Bool
  sort : Option Bool
  wait : Bool
  wait_index : Option Nat

/-- Oracles for the external collaborators used by the kv dispatch
adapter: URL/URI parsing (`url` crate / `hyper::Uri`), the HTTP transport
(hyper), form encoding, serde JSON decoding, and header extraction. -/
structure KvOracles where
  parseUrlWithParams : String → List (String × String) → Except UrlError String
  parseUri : String → Except InvalidUri String
  httpGet : String → Except HttpError HttpResponse
  httpDelete : String → Except HttpError HttpResponse
  httpPut : String → String → Except HttpError HttpResponse
  httpPost : String → String → Except HttpError HttpResponse
  encodeForm : List (String × String) → String
  decodeKV : String → Except SerdeError KeyValueInfo
  decodeApiError : String → Except SerdeError ApiError
  clusterInfoOf : List (String × String) → ClusterInfo

/-- build_url from `src/kv.rs` lines 610-613. -/
def build_url (endpoint : String) (path : String) : String :=
  endpoint ++ r"v2/keys" ++ path

/-- Response classification of `raw_get` (`src/kv.rs` lines 743-755):
status 200 means success (decode the key-space payload, a decode failure
is a Serialization error); any other status means failure (decode the
ApiError payload, a decode failure is a Serialization error). -/
def raw_get_classify (decodeKV : String → Except SerdeError KeyValueInfo)
    (decodeApiError : String → Except SerdeError ApiError)
    (cluster_info : ClusterInfo) (status : Nat) (body : String) :
    Except Error (Response KeyValueInfo) :=
  if status = 200 then
    match decodeKV body with
    | Except.ok data => Except.ok ⟨data, cluster_info⟩
    | Except.error e => Except.error (Error.serialization e)
  else
    match decodeApiError body with
    | Except.ok e => Except.error (Error.api e)
    | Except.error e => Except.error (Error.serialization e)

/-- Response classification of `raw_delete` (`src/kv.rs` lines 676-688),
identical in shape to `raw_get`'s. -/
def raw_delete_classify (decodeKV : String → Except SerdeError KeyValueInfo)
    (decodeApiError : String → Except SerdeError ApiError)
    (cluster_info : ClusterInfo) (status : Nat) (body : String) :
    Except Error (Response KeyValueInfo) :=
  if status = 200 then
    match decodeKV body with
    | Except.ok data => Except.ok ⟨data, cluster_info⟩
    | Except.error e => Except.error (Error.serialization e)
  else
    match decodeApiError body with
    | Except.ok e => Except.error (Error.api e)
    | Except.error e => Except.error (Error.serialization e)

/-- Response classification of `raw_set` (`src/kv.rs` lines 841-852): the
success set is CREATED (201) or OK (200); on success-status decode the
key-space payload (decode failure is Serialization); on any other status
decode the ApiError payload (decode failure is Serialization). -/
def raw_set_classify (decodeKV : String → Except SerdeError KeyValueInfo)
    (decodeApiError : String → Except SerdeError ApiError)
    (cluster_info : ClusterInfo) (status : Nat) (body : String) :
    Except Error (Response KeyValueInfo) :=
  if status = 201 ∨ status = 200 then
    match decodeKV body with
    | Except.ok data => Except.ok ⟨data, cluster_info⟩
    | Except.error e => Except.error (Error.serialization e)
  else
    match decodeApiError body with
    | Except.ok e => Except.error (Error.api e)
    | Except.error e => Except.error (Error.serialization e)

/-- Response classification of auth's `create_role` (`src/auth.rs` lines
395-405): status 200 decodes the Role payload, any other status is
surfaced directly as UnexpectedStatus, with no attempt to decode an error
body. -/
def create_role_classify (decodeRole : String → Except SerdeError Role)
    (cluster_info : ClusterInfo) (status : Nat) (body : String) :
    Except Error (Response Role) :=
  if status = 200 then
    match decodeRole body with
    | Except.ok data => Except.ok ⟨data, cluster_info⟩
    | Except.error e => Except.error (Error.serialization e)
  else
    Except.error (Error.unexpectedStatus status)

/-- Query pairs built by `raw_delete` (`src/kv.rs` lines 624-651).  The
source inserts into a `HashMap`; the association list below carries the
same key-value pairs. -/
def delete_query_pairs (options : DeleteOptions) : List (String × String) :=
  (match options.recursive with
   | some r => [(r"recursive", toString r)]
   | none => []) ++
  (match options.dir with
   | some d => [(r"dir", toString d)]
   | none => []) ++
  (match options.conditions with
   | some conds =>
     (match conds.modified_index with
      | some i => [(r"prevIndex", toString i)]
      | none => []) ++
     (match conds.value with
      | some v => [(r"prevValue", v)]
      | none => [])
   | none => [])

/-- Query pairs built by `raw_get` (`src/kv.rs` lines 704-718). -/
def get_query_pairs (options : InternalGetOptions) : List (String × String) :=
  [(r"recursive", toString options.recursive)] ++
  (match options.sort with
   | some s => [(r"sorted", toString s)]
   | none => []) ++
  (if options.wait then [(r"wait", r"true")] else []) ++
  (match options.wait_index with
   | some i => [(r"waitIndex", toString i)]
   | none => [])

/-- Form-encoded options built by `raw_set` (`src/kv.rs` lines 769-810),
in push order: value, ttl, dir, prevExist (set when `prev_exist` or
`refresh` holds), refresh, prevIndex, prevValue. -/
def set_http_options (options : SetOptions) : List (String × String) :=
  (match options.value with
   | some v => [(r"value", v)]
   | none => []) ++
  (match options.ttl with
   | some t => [(r"ttl", toString t)]
   | none => []) ++
  (match options.dir with
   | some d => [(r"dir", toString d)]
   | none => []) ++
  (if options.prev_exist.getD false || options.refresh then
    [(r"prevExist", toString (options.prev_exist.getD false || options.refresh))]
   else []) ++
  (if options.refresh then [(r"refresh", r"true")] else []) ++
  (match options.conditions with
   | some conds =>
     (match conds.modified_index with
      | some i => [(r"prevIndex", toString i)]
      | none => []) ++
     (match conds.value with
      | some v => [(r"prevValue", v)]
      | none => [])
   | none => [])

/-- Per-endpoint operation body built by `raw_delete` (`src/kv.rs` lines
656-690): build the request URL with query parameters, parse it as a URI,
issue the DELETE, classify the response.  Each stage's failure is the
attempt's per-endpoint error, via the `Error::from` conversions of
`src/error.rs`. -/
def delete_attempt (o : KvOracles) (key : String)
    (qp : List (String × String)) (endpoint : String) :
    Except Error (Response KeyValueInfo) :=
  match o.parseUrlWithParams (build_url endpoint key) qp with
  | Except.error e => Except.error (Error.invalidUrl e)
  | Except.ok url =>
    match o.parseUri url with
    | Except.error e => Except.error (Error.invalidUri e)
    | Except.ok uri =>
      match o.httpDelete uri with
      | Except.error e => Except.error (Error.http e)
      | Except.ok resp =>
        raw_delete_classify o.decodeKV o.decodeApiError
          (o.clusterInfoOf resp.headers) resp.status resp.body

/-- Per-endpoint operation body built by `raw_get` (`src/kv.rs` lines
723-757). -/
def get_attempt (o : KvOracles) (key : String)
    (qp : List (String × String)) (endpoint : String) :
    Except Error (Response KeyValueInfo) :=
  match o.parseUrlWithParams (build_url endpoint key) qp with
  | Except.error e => Except.error (Error.invalidUrl e)
  | Except.ok url =>
    match o.parseUri url with
    | Except.error e => Except.error (Error.invalidUri e)
    | Except.ok uri =>
      match o.httpGet uri with
      | Except.error e => Except.error (Error.http e)
      | Except.ok resp =>
        raw_get_classify o.decodeKV o.decodeApiError
          (o.clusterInfoOf resp.headers) resp.status resp.body

/-- Per-endpoint operation body built by `raw_set` (`src/kv.rs` lines
816-854): form-encode the options into the body, build the URL (no query
parameters), parse it as a URI, issue POST (create-in-order) or PUT, and
classify the response. -/
def set_attempt (o : KvOracles) (key : String)
    (httpOptions : List (String × String)) (create_in_order : Bool)
    (endpoint : String) : Except Error (Response KeyValueInfo) :=
  let body := o.encodeForm httpOptions
  match o.parseUri (build_url endpoint key) with
  | Except.error e => Except.error (Error.invalidUri e)
  | Except.ok uri =>
    match (if create_in_order then o.httpPost uri body else o.httpPut uri body) with
    | Except.error e => Except.error (Error.http e)
    | Except.ok resp =>
      raw_set_classify o.decodeKV o.decodeApiError
        (o.clusterInfoOf resp.headers) resp.status resp.body

/-- raw_delete (`src/kv.rs` lines 616-693) driven to completion: the
empty-conditions guard returns the one-element InvalidConditions error
list before the failover engine is ever constructed; otherwise the
delete attempt runs under `first_ok` over the client's endpoints.
`latency` gives the number of NotReady polls of each endpoint's network
future; `fuel` is the executor's poll budget. -/
def raw_delete (o : KvOracles) (key : String) (options : DeleteOptions)
    (endpoints : List String) (latency : String → Nat) (fuel : Nat) :
    Option (Except (List Error) (Response KeyValueInfo) × List String) :=
  match options.conditions with
  | some conds =>
    if conds.is_empty then some (Except.error [Error.invalidConditions], [])
    else
      drive fuel (first_ok endpoints fun endpoint =>
        ⟨latency endpoint, delete_attempt o key (delete_query_pairs options) endpoint⟩) []
  | none =>
    drive fuel (first_ok endpoints fun endpoint =>
      ⟨latency endpoint, delete_attempt o key (delete_query_pairs options) endpoint⟩) []

/-- raw_set (`src/kv.rs` lines 761-857) driven to completion, with the
same empty-conditions guard. -/
def raw_set (o : KvOracles) (key : String) (options : SetOptions)
    (endpoints : List String) (latency : String → Nat) (fuel : Nat) :
    Option (Except (List Error) (Response KeyValueInfo) × List String) :=
  match options.conditions with
  | some conds =>
    if conds.is_empty then some (Except.error [Error.invalidConditions], [])
    else
      drive fuel (first_ok endpoints fun endpoint =>
        ⟨latency endpoint,
          set_attempt o key (set_http_options options) options.create_in_order endpoint⟩) []
  | none =>
    drive fuel (first_ok endpoints fun endpoint =>
      ⟨latency endpoint,
        set_attempt o key (set_http_options options) options.create_in_order endpoint⟩) []

/-- raw_get (`src/kv.rs` lines 696-758) driven to completion (no condition
guard exists for get). -/
def raw_get (o : KvOracles) (key : String) (options : InternalGetOptions)
    (endpoints : List String) (latency : String → Nat) (fuel : Nat) :
    Option (Except (List Error) (Response KeyValueInfo) × List String) :=
  drive fuel (first_ok endpoints fun endpoint =>
    ⟨latency endpoint, get_attempt o key (get_query_pairs options) endpoint⟩) []

/-- kv::compare_and_swap (`src/kv.rs` lines 179-210): raw_set with the
comparison conditions taken from the caller's current value / modified
index. -/
def compare_and_swap (o : KvOracles) (key : String) (value : String)
    (ttl : Option Nat) (current_value : Option String)
    (current_modified_index : Option Nat) (endpoints : List String)
    (latency : String → Nat) (fuel : Nat) :
    Option (Except (List Error) (Response KeyValueInfo) × List String) :=
  raw_set o key
    ⟨some ⟨current_modified_index, current_value⟩, false, none, none, false,
      ttl, some value⟩
    endpoints latency fuel

/-- kv::compare_and_delete (`src/kv.rs` lines 140-160): raw_delete with
the comparison conditions taken from the caller's current value / modified
index. -/
def compare_and_delete (o : KvOracles) (key : String)
    (current_value : Option String) (current_modified_index : Option Nat)
    (endpoints : List String) (latency : String → Nat) (fuel : Nat) :
    Option (Except (List Error) (Response KeyValueInfo) × List String) :=
  raw_delete o key ⟨some ⟨current_modified_index, current_value⟩, none, none⟩
    endpoints latency fuel

/-- Racing a future against a tokio deadline (`tokio::timer::Timeout`
semantics as consumed by `src/kv.rs`): when the deadline elapses first the
timeout error carries no inner value (`into_inner()` is `None`); when the
inner future errors first, its error is carried (`into_inner()` is
`Some`). `elapsedFirst` is the outcome of the race. -/
def timeoutRace {T : Type} (elapsedFirst : Bool)
    (inner : Except WatchError T) : Except (Option WatchError) T :=
  if elapsedFirst then Except.error none
  else
    match inner with
    | Except.ok v => Except.ok v
    | Except.error we => Except.error (some we)

/-- kv::watch (`src/kv.rs` lines 578-608): map the inner failover call's
error list into `WatchError::Other`; when a timeout duration is supplied,
wrap the work in `Timeout`, mapping an elapsed deadline to
`WatchError::Timeout` and passing an inner `WatchError` through unchanged.
`innerResult` is the resolution of the inner `raw_get` failover call and
`elapsedFirst` tells whether the deadline won the race. -/
def watch (hasTimeout : Bool) (elapsedFirst : Bool)
    (innerResult : Except (List Error) (Response KeyValueInfo)) :
    Except WatchError (Response KeyValueInfo) :=
  let work : Except WatchError (Response KeyValueInfo) :=
    match innerResult with
    | Except.ok v => Except.ok v
    | Except.error errors => Except.error (WatchError.other errors)
  if hasTimeout then
    match timeoutRace elapsedFirst work with
    | Except.ok v => Except.ok v
    | Except.error (some we) => Except.error we
    | Except.error none => Except.error WatchError.timeout
  else work

/-- An etcd cluster member (`src/member.rs`): a validated endpoint URI. -/
structure Member where
  endpoint : String

/-- Member::new (`src/member.rs` lines 11-17): parse the endpoint string
as a URI. -/
def Member.new (parseUri : String → Except InvalidUri String)
    (uri : String) : Except InvalidUri Member :=
  match parseUri uri with
  | Except.ok u => Except.ok ⟨u⟩
  | Except.error e => Except.error e

/-- Stand-in for the configured HTTP connector (`HttpClient::new`
configures TLS and auth but opens no connection). -/
structure HttpClient where
  id : Nat

/-- The etcd client (`src/client.rs` lines 27-30). -/
structure Client where
  http_client : HttpClient
  members : List Member

/-- The member-construction loop of `Client::with_options` (`src/client.rs`
lines 60-64): one `Member::new` per endpoint, stopping at the first
invalid URI (`?` converts the URI error through `Error::from`). -/
def mkMembers (parseUri : String → Except InvalidUri String) :
    List String → Except Error (List Member)
  | [] => Except.ok []
  | e :: rest =>
    match Member.new parseUri e with
    | Except.error err => Except.error (Error.invalidUri err)
    | Except.ok m =>
      match mkMembers parseUri rest with
      | Except.error err => Except.error err
      | Except.ok ms => Except.ok (m :: ms)

/-- Client::with_options (`src/client.rs` lines 54-70): fail synchronously
with NoEndpoints when fewer than one endpoint is supplied; otherwise
construct every member (failing on the first unparseable URI) and then
the HTTP client.  The function is pure and is given no transport oracle:
no network activity can occur during construction. -/
def with_options (parseUri : String → Except InvalidUri String)
    (mkHttpClient : Except Error HttpClient) (endpoints : List String) :
    Except Error Client :=
  if endpoints.length < 1 then Except.error Error.noEndpoints
  else
    match mkMembers parseUri endpoints with
    | Except.error e => Except.error e
    | Except.ok members =>
      match mkHttpClient with
      | Except.error e => Except.error e
      | Except.ok hc => Except.ok ⟨hc, members⟩

/-- Client::new (`src/client.rs` lines 46-48): `with_options` with the
default options. -/
def Client.new (parseUri : String → Except InvalidUri String)
    (mkHttpClient : Except Error HttpClient) (endpoints : List String) :
    Except Error Client :=
  with_options parseUri mkHttpClient endpoints

/-- Concrete witness material: a decoder that always fails, an empty body,
empty cluster info, and oracles whose URL parser always fails. -/
def badJson : SerdeError := ⟨r"bad"⟩

def emptyBody : String := r""

def emptyClusterInfo : ClusterInfo := ⟨[]⟩

def decodeFailKV : String → Except SerdeError KeyValueInfo :=
  fun _ => Except.error badJson

def decodeFailApi : String → Except SerdeError ApiError :=
  fun _ => Except.error badJson

def badUrl : UrlError := ⟨r"bad url"⟩

def noNet : HttpError := ⟨r"no network"⟩

def failingUrlOracles : KvOracles :=
  ⟨fun _ _ => Except.error badUrl,
    fun s => Except.ok s,
    fun _ => Except.error noNet,
    fun _ => Except.error noNet,
    fun _ _ => Except.error noNet,
    fun _ _ => Except.error noNet,
    fun _ => emptyBody,
    decodeFailKV,
    decodeFailApi,
    fun h => ⟨h⟩⟩

end RustEtcd

namespace RustEtcd

theorem pollAux_some_succ {E T Er : Type} (cb : E → Fut T Er) (p : Nat)
    (r : Except Er T) (es : List E) (errs : List Er) :
    pollAux cb (some ⟨Nat.succ p, r⟩) es errs =
      (PollOut.notReady ⟨cb, some ⟨p, r⟩, es, errs⟩, []) := by
  simp [pollAux, Fut.poll]

theorem pollAux_some_ok {E T Er : Type} (cb : E → Fut T Er) (t : T)
    (es : List E) (errs : List Er) :
    pollAux cb (some ⟨0, Except.ok t⟩) es errs = (PollOut.ready t, []) := by
  simp [pollAux, Fut.poll]

theorem pollAux_some_err {E T Er : Type} (cb : E → Fut T Er) (er : Er)
    (es : List E) (errs : List Er) :
    pollAux cb (some ⟨0, Except.error er⟩) es errs =
      pollAux cb none es (errs ++ [er]) := by
  simp [pollAux, Fut.poll]

theorem pollAux_nil {E T Er : Type} (cb : E → Fut T Er) (errs : List Er) :
    pollAux cb none ([] : List E) errs = (PollOut.exhausted errs, []) := by
  simp [pollAux]

theorem pollAux_cons {E T Er : Type} (cb : E → Fut T Er) (e : E)
    (rest : List E) (errs : List Er) :
    pollAux cb none (e :: rest) errs =
      ((pollAux cb (some (cb e)) rest errs).1,
        e :: (pollAux cb (some (cb e)) rest errs).2) := by
  simp [pollAux]

theorem drive_mono {E T Er : Type} :
    ∀ {fuel m : Nat} {s : FirstOk E T Er} {acc : List E}
      {x : Except (List Er) T × List E},
      drive fuel s acc = some x → fuel ≤ m → drive m s acc = some x := by
  intro fuel
  induction fuel with
  | zero => intro m s acc x h; simp [drive] at h
  | succ f ih =>
    intro m s acc x h hle
    match m, hle with
    | Nat.succ m', hle =>
      rcases hpoll : s.poll with ⟨out, inv⟩
      cases out with
      | ready t => simp [drive, hpoll] at h ⊢; exact h
      | exhausted errs => simp [drive, hpoll] at h ⊢; exact h
      | notReady s2 =>
        simp [drive, hpoll] at h ⊢
        exact ih h (Nat.le_of_succ_le_succ hle)

theorem drive_cons {E T Er : Type} (cb : E → Fut T Er) (e : E)
    (rest : List E) (errs : List Er) (acc : List E) {fuel : Nat}
    (hfuel : 1 ≤ fuel) :
    drive fuel (⟨cb, none, e :: rest, errs⟩ : FirstOk E T Er) acc =
      drive fuel (⟨cb, some (cb e), rest, errs⟩ : FirstOk E T Er) (acc ++ [e]) := by
  match fuel, hfuel with
  | Nat.succ f, _ =>
    rcases hpoll : pollAux cb (some (cb e)) rest errs with ⟨out, inv⟩
    have hp : FirstOk.poll (⟨cb, none, e :: rest, errs⟩ : FirstOk E T Er) =
        (out, e :: inv) := by
      simp [FirstOk.poll, pollAux_cons, hpoll]
    have hq : FirstOk.poll (⟨cb, some (cb e), rest, errs⟩ : FirstOk E T Er) =
        (out, inv) := by
      simp [FirstOk.poll, hpoll]
    cases out with
    | ready t => simp [drive, hp, hq]
    | exhausted errs2 => simp [drive, hp, hq]
    | notReady s2 => simp [drive, hp, hq]

theorem drive_mid {E T Er : Type} (cb : E → Fut T Er) :
    ∀ (p : Nat) (r : Except Er T) (es : List E) (errs : List Er)
      (acc : List E) {fuel : Nat}, 1 ≤ fuel →
      drive (p + fuel) (⟨cb, some ⟨p, r⟩, es, errs⟩ : FirstOk E T Er) acc =
        drive fuel (⟨cb, some ⟨0, r⟩, es, errs⟩ : FirstOk E T Er) acc := by
  intro p
  induction p with
  | zero => intro r es errs acc fuel _; simp
  | succ p ih =>
    intro r es errs acc fuel hfuel
    have hp : FirstOk.poll (⟨cb, some ⟨Nat.succ p, r⟩, es, errs⟩ : FirstOk E T Er) =
        (PollOut.notReady ⟨cb, some ⟨p, r⟩, es, errs⟩, []) := by
      simp [FirstOk.poll, pollAux_some_succ]
    have harith : Nat.succ p + fuel = (p + fuel) + 1 := by omega
    rw [harith]
    have h1 : 1 ≤ p + fuel := by omega
    calc drive ((p + fuel) + 1) (⟨cb, some ⟨Nat.succ p, r⟩, es, errs⟩ : FirstOk E T Er) acc
        = drive (p + fuel) (⟨cb, some ⟨p, r⟩, es, errs⟩ : FirstOk E T Er) acc := by
          simp [drive, hp]
      _ = drive fuel (⟨cb, some ⟨0, r⟩, es, errs⟩ : FirstOk E T Er) acc := ih r es errs acc hfuel

theorem drive_some_err {E T Er : Type} (cb : E → Fut T Er) (er : Er)
    (es : List E) (errs : List Er) (acc : List E) {fuel : Nat}
    (hfuel : 1 ≤ fuel) :
    drive fuel (⟨cb, some ⟨0, Except.error er⟩, es, errs⟩ : FirstOk E T Er) acc =
      drive fuel (⟨cb, none, es, errs ++ [er]⟩ : FirstOk E T Er) acc := by
  match fuel, hfuel with
  | Nat.succ f, _ =>
    have hp : FirstOk.poll (⟨cb, some ⟨0, Except.error er⟩, es, errs⟩ : FirstOk E T Er) =
        FirstOk.poll (⟨cb, none, es, errs ++ [er]⟩ : FirstOk E T Er) := by
      simp [FirstOk.poll, pollAux_some_err]
    simp [drive, hp]

theorem drive_eq_fold {E T Er : Type} (cb : E → Fut T Er) :
    ∀ (es : List E) (errs : List Er) (acc : List E) {fuel : Nat},
      pendingSum cb es + 1 ≤ fuel →
      drive fuel (⟨cb, none, es, errs⟩ : FirstOk E T Er) acc =
        some ((foldFirstOk cb es errs).1, acc ++ (foldFirstOk cb es errs).2) := by
  intro es
  induction es with
  | nil =>
    intro errs acc fuel hfuel
    match fuel, hfuel with
    | Nat.succ f, _ =>
      have hp : FirstOk.poll (⟨cb, none, ([] : List E), errs⟩ : FirstOk E T Er) =
          (PollOut.exhausted errs, []) := by
        simp [FirstOk.poll, pollAux_nil]
      simp [drive, hp, foldFirstOk]
  | cons e rest ih =>
    intro errs acc fuel hfuel
    have hsum : pendingSum cb (e :: rest) = (cb e).pending + pendingSum cb rest := by
      simp [pendingSum]
    have h1 : 1 ≤ fuel := by omega
    rw [drive_cons cb e rest errs acc h1]
    have heta : cb e = (⟨(cb e).pending, (cb e).result⟩ : Fut T Er) := rfl
    have harith : fuel = (cb e).pending + (fuel - (cb e).pending) := by omega
    have h2 : 1 ≤ fuel - (cb e).pending := by omega
    rw [heta, harith,
      drive_mid cb (cb e).pending (cb e).result rest errs (acc ++ [e]) h2]
    rcases hres : (cb e).result with er | t
    · -- per-endpoint failure: push the error and continue with the rest
      rw [drive_some_err cb er rest errs (acc ++ [e]) h2]
      have h3 : pendingSum cb rest + 1 ≤ fuel - (cb e).pending := by omega
      rw [ih (errs ++ [er]) (acc ++ [e]) h3]
      simp [foldFirstOk, hres]
    · -- per-endpoint success: short-circuit
      match hf : fuel - (cb e).pending, h2 with
      | Nat.succ f, _ =>
        have hp : FirstOk.poll (⟨cb, some ⟨0, Except.ok t⟩, rest, errs⟩ : FirstOk E T Er) =
            (PollOut.ready t, []) := by
          simp [FirstOk.poll, pollAux_some_ok]
        simp [drive, hp, foldFirstOk, hres]

end RustEtcd

namespace RustEtcd

theorem foldFirstOk_pre_fail {E T Er : Type} (cb : E → Fut T Er) :
    ∀ (pre : List E) (e0 : E) (rest : List E) (errs : List Er) (t : T),
      (∀ x ∈ pre, ∃ er, (cb x).result = Except.error er) →
      (cb e0).result = Except.ok t →
      foldFirstOk cb (pre ++ e0 :: rest) errs = (Except.ok t, pre ++ [e0]) := by
  intro pre
  induction pre with
  | nil =>
    intro e0 rest errs t _ hok
    simp [foldFirstOk, hok]
  | cons e pre ih =>
    intro e0 rest errs t hfail hok
    rcases hfail e (List.mem_cons_self e pre) with ⟨er, her⟩
    have hrec := ih e0 rest (errs ++ [er]) t
      (fun x hx => hfail x (List.mem_cons_of_mem e hx)) hok
    simp [foldFirstOk, her, hrec]

theorem foldFirstOk_append_fail {E T Er : Type} (cb : E → Fut T Er) (err : E → Er) :
    ∀ (pre tail : List E) (errs : List Er),
      (∀ x ∈ pre, (cb x).result = Except.error (err x)) →
      foldFirstOk cb (pre ++ tail) errs =
        ((foldFirstOk cb tail (errs ++ pre.map err)).1,
          pre ++ (foldFirstOk cb tail (errs ++ pre.map err)).2) := by
  intro pre
  induction pre with
  | nil => intro tail errs _; simp
  | cons e pre ih =>
    intro tail errs hfail
    have her : (cb e).result = Except.error (err e) :=
      hfail e (List.mem_cons_self e pre)
    have hrec := ih tail (errs ++ [err e])
      (fun x hx => hfail x (List.mem_cons_of_mem e hx))
    simp [foldFirstOk, her, hrec]

theorem foldFirstOk_all_fail {E T Er : Type} (cb : E → Fut T Er) (err : E → Er) :
    ∀ (es : List E) (errs : List Er),
      (∀ x ∈ es, (cb x).result = Except.error (err x)) →
      foldFirstOk cb es errs = (Except.error (errs ++ es.map err), es) := by
  intro es
  induction es with
  | nil => intro errs _; simp [foldFirstOk]
  | cons e rest ih =>
    intro errs hfail
    have her : (cb e).result = Except.error (err e) :=
      hfail e (List.mem_cons_self e rest)
    have hrec := ih (errs ++ [err e])
      (fun x hx => hfail x (List.mem_cons_of_mem e hx))
    simp [foldFirstOk, her, hrec]

theorem foldFirstOk_take {E T Er : Type} (cb : E → Fut T Er) :
    ∀ (es : List E) (errs : List Er),
      ∃ m, (foldFirstOk cb es errs).2 = List.take m es := by
  intro es
  induction es with
  | nil => intro errs; exact ⟨0, by simp [foldFirstOk]⟩
  | cons e rest ih =>
    intro errs
    rcases hres : (cb e).result with er | t
    · rcases ih (errs ++ [er]) with ⟨m, hm⟩
      exact ⟨m + 1, by simp [foldFirstOk, hres, hm]⟩
    · exact ⟨1, by simp [foldFirstOk, hres]⟩

theorem pollCallsAux_all_immediate {E T Er : Type} (cb : E → Fut T Er)
    (err : E → Er) :
    ∀ (es : List E) (errs : List Er),
      (∀ x ∈ es, cb x = ⟨0, Except.error (err x)⟩) →
      pollCallsAux cb none es errs = 2 * es.length + 1 := by
  intro es
  induction es with
  | nil => intro errs _; simp [pollCallsAux]
  | cons e rest ih =>
    intro errs hfail
    have hcb : cb e = (⟨0, Except.error (err e)⟩ : Fut T Er) :=
      hfail e (List.mem_cons_self e rest)
    have hrec := ih (errs ++ [err e])
      (fun x hx => hfail x (List.mem_cons_of_mem e hx))
    simp [pollCallsAux, hcb, Fut.poll, hrec]
    omega

end RustEtcd

namespace RustEtcd

/-- C1: short-circuit property.  For every endpoint list split as
`pre ++ e0 :: rest` (so the success endpoint is `k`-th with
`k = pre.length + 1`) and every operation callback whose futures fail on
all of `pre` and succeed on `e0` with value `t`, driving the `FirstOk`
future returned by `first_ok` to completion resolves with `t`, and the
callback is invoked exactly on `pre ++ [e0]` — exactly `k` invocations, in
list order, and no endpoint of `rest` (after the `k`-th) is ever passed to
the callback. -/
theorem first_ok_short_circuit {E T Er : Type} (cb : E → Fut T Er)
    (pre : List E) (e0 : E) (rest : List E) (t : T) (fuel : Nat)
    (hfail : ∀ x ∈ pre, ∃ er, (cb x).result = Except.error er)
    (hsucc : (cb e0).result = Except.ok t)
    (hfuel : pendingSum cb (pre ++ e0 :: rest) + 1 ≤ fuel) :
    drive fuel (first_ok (pre ++ e0 :: rest) cb) [] =
      some (Except.ok t, pre ++ [e0]) := by
  have h := drive_eq_fold cb (pre ++ e0 :: rest) [] [] hfuel
  rw [foldFirstOk_pre_fail cb pre e0 rest [] t hfail hsucc] at h
  simpa [first_ok] using h

/-- Witness for C1 at a concrete input: three endpoints, failure on the
first, success on the second; two invocations, third endpoint untouched. -/
theorem first_ok_short_circuit_witness :
    drive 10 (first_ok [0, 1, 2]
      (fun n : Nat =>
        if n = 1 then (⟨1, Except.ok 42⟩ : Fut Nat Nat)
        else ⟨2, Except.error n⟩)) [] =
      some (Except.ok 42, [0, 1]) := by
  have h := first_ok_short_circuit
    (fun n : Nat =>
      if n = 1 then (⟨1, Except.ok 42⟩ : Fut Nat Nat) else ⟨2, Except.error n⟩)
    [0] 1 [2] 42 10
    (by intro x hx; simp at hx; subst hx; exact ⟨0, rfl⟩)
    (by simp)
    (by decide)
  simpa using h

/-- C2: exhaustion with order preservation.  For every non-empty endpoint
list and every callback failing on each endpoint `x` with error `err x`,
driving the `FirstOk` future to completion invokes the callback on every
endpoint (exactly `n` invocations, in order) and resolves with the error
list `es.map err` — length exactly `n`, whose `i`-th element is the error
produced by the `i`-th endpoint. -/
theorem first_ok_exhaustion {E T Er : Type} (cb : E → Fut T Er)
    (es : List E) (err : E → Er) (fuel : Nat)
    (hne : es ≠ [])
    (herr : ∀ x ∈ es, (cb x).result = Except.error (err x))
    (hfuel : pendingSum cb es + 1 ≤ fuel) :
    drive fuel (first_ok es cb) [] = some (Except.error (es.map err), es) := by
  have h := drive_eq_fold cb es [] [] hfuel
  rw [foldFirstOk_all_fail cb err es [] herr] at h
  simpa [first_ok] using h

/-- Witness for C2 at a concrete input: two endpoints, both failing. -/
theorem first_ok_exhaustion_witness :
    drive 10 (first_ok [5, 6]
      (fun n : Nat => (⟨1, Except.error n⟩ : Fut Nat Nat))) [] =
      some (Except.error [5, 6], [5, 6]) := by
  have h := first_ok_exhaustion
    (fun n : Nat => (⟨1, Except.error n⟩ : Fut Nat Nat)) [5, 6] id 10
    (by simp) (fun x _ => rfl) (by decide)
  simpa using h

/-- C5: single-flight invariant.  Whenever driving a `first_ok` future
resolves, the list of endpoints passed to the callback is an initial
segment `List.take m es` of the supplied list — so every endpoint is
invoked at most once and never re-attempted within the call — and every
engine state holds at most one per-endpoint future in flight (the
`current_future` field is an `Option`). -/
theorem first_ok_single_flight {E T Er : Type} (cb : E → Fut T Er)
    (es : List E) (fuel : Nat) (r : Except (List Er) T) (inv : List E)
    (h : drive fuel (first_ok es cb) [] = some (r, inv)) :
    (∃ m, inv = List.take m es) ∧
      ∀ s : FirstOk E T Er, FirstOk.inflight s ≤ 1 := by
  constructor
  · have h2 := drive_mono h (le_max_left fuel (pendingSum cb es + 1))
    have h3 := drive_eq_fold cb es [] []
      (le_max_right fuel (pendingSum cb es + 1))
    rw [show first_ok es cb = (⟨cb, none, es, []⟩ : FirstOk E T Er) from rfl] at h2
    rw [h2] at h3
    rcases foldFirstOk_take cb es [] with ⟨m, hm⟩
    have h4 : (r, inv) = ((foldFirstOk cb es []).1, [] ++ (foldFirstOk cb es []).2) :=
      Option.some.inj h3
    refine ⟨m, ?_⟩
    have h5 : inv = (foldFirstOk cb es []).2 := by
      have := congrArg Prod.snd h4
      simpa using this
    rw [h5, hm]
  · intro s
    rcases hs : s.current_future with _ | f <;> simp [FirstOk.inflight, hs]

/-- Witness for C5 at a concrete input. -/
theorem first_ok_single_flight_witness :
    (∃ m, ([3, 4] : List Nat) = List.take m [3, 4]) ∧
      ∀ s : FirstOk Nat Nat Nat, FirstOk.inflight s ≤ 1 :=
  first_ok_single_flight (fun n : Nat => (⟨0, Except.error n⟩ : Fut Nat Nat))
    [3, 4] 5 (Except.error [3, 4]) [3, 4]
    (by simp [drive, first_ok, FirstOk.poll, pollAux, Fut.poll])

/-- C9 counterexample: the claim that driving the engine does not grow the
call stack in proportion to the number of endpoints tried is false.  The
source's `poll` calls `self.poll()` recursively in its `Err` and
`Some(endpoint)` branches (Rust guarantees no tail-call elimination), and
with every endpoint failing immediately there is no bound on the number of
nested `poll` calls a single outermost `poll` performs: it is `2n + 1` for
`n` endpoints. -/
theorem first_ok_poll_depth_unbounded :
    ¬ ∃ b : Nat, ∀ n : Nat,
      FirstOk.pollCalls (first_ok (List.replicate n 0)
        (fun _ : Nat => (⟨0, Except.error 0⟩ : Fut Nat Nat))) ≤ b := by
  rintro ⟨b, hb⟩
  have h := hb (b + 1)
  have hc : FirstOk.pollCalls (first_ok (List.replicate (b + 1) 0)
      (fun _ : Nat => (⟨0, Except.error 0⟩ : Fut Nat Nat))) = 2 * (b + 1) + 1 := by
    have h2 := pollCallsAux_all_immediate
      (fun _ : Nat => (⟨0, Except.error 0⟩ : Fut Nat Nat)) (fun _ => 0)
      (List.replicate (b + 1) 0) [] (fun x _ => rfl)
    simpa [FirstOk.pollCalls, first_ok] using h2
  rw [hc] at h
  omega

/-- C9 (amended): the failover engine does compute a fold over the endpoint
list with `Result`-typed early exit — driving `first_ok es cb` to
completion yields exactly `foldFirstOk cb es []` — but the `poll`
implementation is recursive rather than iterative: when all endpoints fail
immediately, one outermost `poll` call performs `2 * n + 1` nested `poll`
calls for `n` endpoints, so the call stack grows linearly in the number of
endpoints tried. -/
theorem first_ok_fold_with_early_exit {E T Er : Type} (cb : E → Fut T Er)
    (es : List E) (fuel : Nat) (hfuel : pendingSum cb es + 1 ≤ fuel) :
    drive fuel (first_ok es cb) [] =
      some ((foldFirstOk cb es []).1, (foldFirstOk cb es []).2) ∧
    ∀ err : E → Er, (∀ x ∈ es, cb x = ⟨0, Except.error (err x)⟩) →
      FirstOk.pollCalls (first_ok es cb) = 2 * es.length + 1 := by
  constructor
  · have h := drive_eq_fold cb es [] [] hfuel
    simpa [first_ok] using h
  · intro err hfail
    have h := pollCallsAux_all_immediate cb err es [] hfail
    simpa [FirstOk.pollCalls, first_ok] using h

/-- Witness for the amended C9 at a concrete input. -/
theorem first_ok_fold_with_early_exit_witness :
    drive 4 (first_ok [7, 8]
        (fun _ : Nat => (⟨0, Except.error 0⟩ : Fut Nat Nat))) [] =
      some ((foldFirstOk (fun _ : Nat => (⟨0, Except.error 0⟩ : Fut Nat Nat)) [7, 8] []).1,
        (foldFirstOk (fun _ : Nat => (⟨0, Except.error 0⟩ : Fut Nat Nat)) [7, 8] []).2) ∧
      FirstOk.pollCalls (first_ok [7, 8]
        (fun _ : Nat => (⟨0, Except.error 0⟩ : Fut Nat Nat))) = 2 * 2 + 1 := by
  have h := first_ok_fold_with_early_exit
    (fun _ : Nat => (⟨0, Except.error 0⟩ : Fut Nat Nat)) [7, 8] 4 (by decide)
  refine ⟨h.1, ?_⟩
  have h2 := h.2 (fun _ => 0) (fun x _ => rfl)
  simpa using h2

end RustEtcd

namespace RustEtcd

/-- C3 counterexample: the claim says a non-success status whose body does
not decode as the structured API error payload is recorded as
`UnexpectedStatus` carrying the raw code; but `raw_set`'s classification
(`src/kv.rs` 841-852) records a `Serialization` error in that case, at the
concrete input status 500 with an undecodable body. -/
theorem kv_set_unexpected_status_refuted :
    raw_set_classify decodeFailKV decodeFailApi emptyClusterInfo 500 emptyBody =
      Except.error (Error.serialization badJson) ∧
    raw_set_classify decodeFailKV decodeFailApi emptyClusterInfo 500 emptyBody ≠
      Except.error (Error.unexpectedStatus 500) := by
  have hval : raw_set_classify decodeFailKV decodeFailApi emptyClusterInfo 500 emptyBody =
      Except.error (Error.serialization badJson) := rfl
  refine ⟨hval, ?_⟩
  rw [hval]
  simp

/-- C3 (corrected): for every kv `raw_set` attempt whose HTTP status is
not in the success set (201/200) and whose body fails to decode as the
ApiError payload, the per-endpoint error is a `Serialization` error
wrapping the decode failure — not `UnexpectedStatus`.  `UnexpectedStatus`
carrying the raw code is produced by the auth module (`create_role`,
`src/auth.rs` 395-405), which maps every non-200 status to it directly
without attempting an error-body decode. -/
theorem kv_non_success_error_body_decode_failure
    (dKV : String → Except SerdeError KeyValueInfo)
    (dApi : String → Except SerdeError ApiError) (ci : ClusterInfo)
    (status : Nat) (body : String) (e : SerdeError)
    (hstatus : ¬ (status = 201 ∨ status = 200))
    (hdec : dApi body = Except.error e) :
    raw_set_classify dKV dApi ci status body =
      Except.error (Error.serialization e) ∧
    ∀ (dRole : String → Except SerdeError Role) (ci2 : ClusterInfo)
      (status2 : Nat) (body2 : String), status2 ≠ 200 →
      create_role_classify dRole ci2 status2 body2 =
        Except.error (Error.unexpectedStatus status2) := by
  constructor
  · simp [raw_set_classify, hstatus, hdec]
  · intro dRole ci2 status2 body2 h
    simp [create_role_classify, h]

/-- Witness for the corrected C3 at a concrete input (status 500,
undecodable error body; auth at status 403). -/
theorem kv_non_success_error_body_decode_failure_witness :
    raw_set_classify decodeFailKV decodeFailApi emptyClusterInfo 500 emptyBody =
      Except.error (Error.serialization badJson) ∧
    create_role_classify (fun _ => Except.error badJson) emptyClusterInfo 403 emptyBody =
      Except.error (Error.unexpectedStatus 403) := by
  have h := kv_non_success_error_body_decode_failure decodeFailKV decodeFailApi
    emptyClusterInfo 500 emptyBody badJson (by simp) rfl
  exact ⟨h.1, h.2 (fun _ => Except.error badJson) emptyClusterInfo 403 emptyBody (by simp)⟩

/-- C4: construction guard.  Constructing a client from zero endpoints
(via `Client::new` or `Client::with_options`) fails synchronously with
`NoEndpoints` — the member loop and HTTP-client construction are never
reached, and the model takes no transport oracle at all, so no network
activity is possible — and any endpoint list containing an entry the URI
parser rejects also fails construction synchronously. -/
theorem client_construction_guard
    (parseUri : String → Except InvalidUri String)
    (mkHttpClient : Except Error HttpClient) (es : List String)
    (e : String) (ue : InvalidUri)
    (he : e ∈ es) (hbad : parseUri e = Except.error ue) :
    Client.new parseUri mkHttpClient [] = Except.error Error.noEndpoints ∧
    with_options parseUri mkHttpClient [] = Except.error Error.noEndpoints ∧
    ∃ er, with_options parseUri mkHttpClient es = Except.error er := by
  refine ⟨rfl, rfl, ?_⟩
  have hmk : ∀ l : List String, e ∈ l →
      ∃ er2, mkMembers parseUri l = Except.error er2 := by
    intro l
    induction l with
    | nil => intro h; cases h
    | cons a rest ih =>
      intro h
      by_cases hae : a = e
      · subst hae
        exact ⟨Error.invalidUri ue, by simp [mkMembers, Member.new, hbad]⟩
      · have hmem : e ∈ rest := by
          rcases List.mem_cons.mp h with h1 | h1
          · exact absurd h1.symm hae
          · exact h1
        rcases ih hmem with ⟨er2, hr⟩
        rcases hma : Member.new parseUri a with err2 | m
        · exact ⟨Error.invalidUri err2, by simp [mkMembers, hma]⟩
        · exact ⟨er2, by simp [mkMembers, hma, hr]⟩
  rcases hmk es he with ⟨er2, hm⟩
  have hlen : ¬ (es.length < 1) := by
    cases es with
    | nil => cases he
    | cons a rest => simp
  exact ⟨er2, by simp [with_options, hlen, hm]⟩

/-- Witness for C4 at a concrete input: a parser that rejects everything,
an empty list, and a one-element list. -/
theorem client_construction_guard_witness :
    Client.new (fun s => Except.error (⟨s⟩ : InvalidUri)) (Except.ok ⟨0⟩) [] =
      Except.error Error.noEndpoints ∧
    with_options (fun s => Except.error (⟨s⟩ : InvalidUri)) (Except.ok ⟨0⟩) [] =
      Except.error Error.noEndpoints ∧
    ∃ er, with_options (fun s => Except.error (⟨s⟩ : InvalidUri)) (Except.ok ⟨0⟩)
      [emptyBody] = Except.error er :=
  client_construction_guard (fun s => Except.error (⟨s⟩ : InvalidUri))
    (Except.ok ⟨0⟩) [emptyBody] emptyBody ⟨emptyBody⟩ (by simp) rfl

/-- C6: a URL-construction failure is a per-endpoint error, not a fatal
abort.  First conjunct (adapter): when joining the endpoint's base address
with the operation's path and query parameters fails, `raw_delete`'s
per-endpoint attempt yields `InvalidUrl` as its error.  Second conjunct
(engine): running the failover call over `pre ++ bad :: rest` where `bad`'s
future carries that `InvalidUrl` error and all other endpoints also fail,
the call still tries every endpoint (the callback is invoked on the whole
list) and the aggregate error list contains the `InvalidUrl` error at
exactly position `pre.length`, in endpoint order. -/
theorem url_construction_error_per_endpoint {E T : Type}
    (o : KvOracles) (key : String) (qp : List (String × String))
    (endpoint : String) (ue : UrlError)
    (cb : E → Fut T Error) (pre : List E) (bad : E) (rest : List E)
    (err : E → Error) (fuel : Nat)
    (hurl : o.parseUrlWithParams (build_url endpoint key) qp = Except.error ue)
    (hbad : (cb bad).result = Except.error (Error.invalidUrl ue))
    (hpre : ∀ x ∈ pre, (cb x).result = Except.error (err x))
    (hrest : ∀ x ∈ rest, (cb x).result = Except.error (err x))
    (hfuel : pendingSum cb (pre ++ bad :: rest) + 1 ≤ fuel) :
    delete_attempt o key qp endpoint = Except.error (Error.invalidUrl ue) ∧
    drive fuel (first_ok (pre ++ bad :: rest) cb) [] =
      some (Except.error (pre.map err ++ Error.invalidUrl ue :: rest.map err),
        pre ++ bad :: rest) := by
  constructor
  · simp [delete_attempt, hurl]
  · have hfold : foldFirstOk cb (pre ++ bad :: rest) [] =
        (Except.error (pre.map err ++ Error.invalidUrl ue :: rest.map err),
          pre ++ bad :: rest) := by
      rw [foldFirstOk_append_fail cb err pre (bad :: rest) [] hpre]
      have htail := foldFirstOk_all_fail cb err rest
        (List.map err pre ++ [Error.invalidUrl ue]) hrest
      simp [foldFirstOk, hbad, htail, List.append_assoc]
    have h := drive_eq_fold cb (pre ++ bad :: rest) [] [] hfuel
    rw [hfold] at h
    simpa [first_ok] using h

/-- Witness for C6 at a concrete input. -/
theorem url_construction_error_per_endpoint_witness :
    delete_attempt failingUrlOracles emptyBody [] emptyBody =
      Except.error (Error.invalidUrl badUrl) ∧
    drive 5 (first_ok [0, 1, 2] (fun n : Nat =>
        (⟨0, Except.error (if n = 1 then Error.invalidUrl badUrl
          else Error.unexpectedStatus n)⟩ : Fut Nat Error))) [] =
      some (Except.error [Error.unexpectedStatus 0, Error.invalidUrl badUrl,
        Error.unexpectedStatus 2], [0, 1, 2]) := by
  have h := url_construction_error_per_endpoint failingUrlOracles emptyBody []
    emptyBody badUrl
    (fun n : Nat =>
      (⟨0, Except.error (if n = 1 then Error.invalidUrl badUrl
        else Error.unexpectedStatus n)⟩ : Fut Nat Error))
    [0] 1 [2] (fun n => Error.unexpectedStatus n) 5
    rfl
    (by simp)
    (by intro x hx; simp at hx; subst hx; rfl)
    (by intro x hx; simp at hx; subst hx; rfl)
    (by decide)
  simpa using h

/-- C7: a success-status body that fails to decode is a per-endpoint
`Serialization` error, never a success — for `raw_set` (success set
201/200) and for `raw_get` (success status 200). -/
theorem kv_success_status_decode_failure
    (dKV : String → Except SerdeError KeyValueInfo)
    (dApi : String → Except SerdeError ApiError) (ci : ClusterInfo)
    (status : Nat) (body : String) (e : SerdeError)
    (hset : status = 201 ∨ status = 200)
    (hdec : dKV body = Except.error e) :
    raw_set_classify dKV dApi ci status body =
      Except.error (Error.serialization e) ∧
    raw_get_classify dKV dApi ci 200 body =
      Except.error (Error.serialization e) := by
  constructor
  · rw [raw_set_classify, if_pos hset, hdec]
  · rw [raw_get_classify, if_pos rfl, hdec]

/-- Witness for C7 at a concrete input (status 200, undecodable success
body). -/
theorem kv_success_status_decode_failure_witness :
    raw_set_classify decodeFailKV decodeFailApi emptyClusterInfo 200 emptyBody =
      Except.error (Error.serialization badJson) ∧
    raw_get_classify decodeFailKV decodeFailApi emptyClusterInfo 200 emptyBody =
      Except.error (Error.serialization badJson) :=
  kv_success_status_decode_failure decodeFailKV decodeFailApi emptyClusterInfo
    200 emptyBody badJson (Or.inr rfl) rfl

/-- C8: when a timeout is set and the deadline elapses before the inner
failover call resolves, `watch` resolves with the single `Timeout` variant
regardless of the inner state (any per-endpoint errors accumulated so far
are discarded); when the inner failover call fails before the deadline,
the full ordered error list is surfaced as the `Other` variant; and the
two variants are distinct. -/
theorem watch_timeout_discards_errors
    (inner : Except (List Error) (Response KeyValueInfo)) (errs : List Error) :
    watch true true inner = Except.error WatchError.timeout ∧
    watch true false (Except.error errs) = Except.error (WatchError.other errs) ∧
    WatchError.other errs ≠ WatchError.timeout := by
  refine ⟨?_, rfl, by simp⟩
  cases inner <;> rfl

/-- C10: a compare-and-swap or compare-and-delete call with both
comparison conditions unset resolves with the one-element
`InvalidConditions` error list and an empty invocation list, for every
endpoint list and every executor fuel (including zero fuel, so the
failover engine is never driven and no per-endpoint callback runs). -/
theorem cas_cad_empty_conditions (o : KvOracles) (key value : String)
    (ttl : Option Nat) (endpoints : List String) (latency : String → Nat)
    (fuel : Nat) :
    compare_and_swap o key value ttl none none endpoints latency fuel =
      some (Except.error [Error.invalidConditions], []) ∧
    compare_and_delete o key none none endpoints latency fuel =
      some (Except.error [Error.invalidConditions], []) :=
  ⟨rfl, rfl⟩

end RustEtcd
